import Mathlib

/-!
Shallow embedding of the Social_Media_API Django application, used to check its
natural-language specification.  The definitions below are translated from the
repository sources: `posts/serializers.py`, `posts/tasks.py`,
`interactions/serializers.py`, `interactions/views.py`, `interactions/models.py`,
`users/serializers.py` and `users/permissions.py`.  Machine-level details that
matter here (Python truthiness, attribute lookup, `int()` truncation, `round()`
ties-to-even) are modelled explicitly.
-/

namespace SocialMediaAPI

abbrev UserId := Nat
abbrev PostId := Nat

/-- Django auth `User` row (the fields this code base reads). -/
structure UserRec where
  id : UserId
  username : String
  email : String
  is_staff : Bool
  is_superuser : Bool
deriving DecidableEq, Repr

/-- `posts.models.Post` row (fields used by the serializers and views). -/
structure PostRow where
  id : PostId
  author : UserId
  content : String
  image : Option String
deriving DecidableEq, Repr

/-- `interactions.models.Follow` row: fields `follower` and `following`
(plus an auto timestamp, irrelevant here).  Note the model has NO field or
attribute named `user`. -/
structure FollowRow where
  id : Nat
  follower : UserId
  following : UserId
deriving DecidableEq, Repr

/-- `interactions.models.Like` row. -/
structure LikeRow where
  id : Nat
  user : UserId
  post : PostId
deriving DecidableEq, Repr

/-- `interactions.models.Comment` row. -/
structure CommentRow where
  id : Nat
  user : UserId
  post : PostId
  content : String
deriving DecidableEq, Repr

/-! ## Time model for the scheduled-post flow (`posts/serializers.py`)

Instants are rational numbers of seconds on the UTC time line (Python
datetimes have microsecond resolution, so rationals are exact).  A submitted
`scheduled_at` is either timezone-aware — it denotes an instant directly — or
naive, in which case `PostSerializer.create` localizes it to the configured
local zone (`pytz.timezone(settings.TIME_ZONE)`); we carry that zone's UTC
offset (seconds east of UTC) as a parameter `localOffset`. -/

inductive SchedDateTime where
  | aware (utc : ℚ)
  | naive (wall : ℚ)
deriving DecidableEq, Repr

/-- `local_tz.localize(dt).astimezone(pytz.UTC)` for a naive wall-clock value:
the denoted instant is `wall - localOffset`; an aware value keeps its instant
under `astimezone(pytz.UTC)`. -/
def toUtc (localOffset : ℚ) : SchedDateTime → ℚ
  | .aware u => u
  | .naive w => w - localOffset

/-- Python `int()` applied to a number: truncation toward zero. -/
def pyInt (q : ℚ) : ℤ :=
  if 0 ≤ q then ⌊q⌋ else -⌊-q⌋

/-- Python `round()` to the nearest integer, ties going to the even integer. -/
def pyRoundHalfEven (q : ℚ) : ℤ :=
  if q - ⌊q⌋ < 1/2 then ⌊q⌋
  else if q - ⌊q⌋ > 1/2 then ⌊q⌋ + 1
  else if 2 ∣ ⌊q⌋ then ⌊q⌋ else ⌊q⌋ + 1

/-- Python `round(q, 1)`: round to one decimal place. -/
def pyRound1 (q : ℚ) : ℚ :=
  (pyRoundHalfEven (q * 10) : ℚ) / 10

/-- The `create_scheduled_post.apply_async` call made by `PostSerializer.create`:
its positional args and the `countdown` handed to the queue. -/
structure TaskCall where
  author_id : UserId
  content : String
  image_path : Option String
  countdown : ℤ
deriving DecidableEq, Repr

/-- The delay fields of the payload returned when a post is deferred
(`delay_seconds` and `delay_minutes` keys of the returned dict). -/
structure ScheduledPayload where
  delay_seconds : ℚ
  delay_minutes : ℚ
deriving DecidableEq, Repr

/-- A `Post.objects.create(**post_data)` performed synchronously. -/
structure NewPost where
  author : UserId
  content : String
  image : Option String
deriving DecidableEq, Repr

/-- Everything observable about one run of `PostSerializer.create`: the post
row created synchronously (if any), the task enqueued (if any), and the delay
payload returned for a deferred post. -/
structure PostCreateOutcome where
  createdPost : Option NewPost
  enqueuedTask : Option TaskCall
  payload : Option ScheduledPayload
deriving DecidableEq, Repr

namespace PostSerializer

/-- `PostSerializer.create` (`posts/serializers.py` lines 35-137), restricted to
the observables above.  `now` is `timezone.now()` as an instant (UTC seconds);
`localOffset` is the UTC offset of `settings.TIME_ZONE`.  A naive
`scheduled_at` is localized to the local zone; both times are converted to
UTC; if the scheduled instant is strictly in the future the delay is computed
and, when it is at least 5 seconds, a `create_scheduled_post` task is enqueued
with `countdown=max(1, int(delay_seconds))` and no post row is created;
otherwise (past, equal, or delay under 5 seconds) the post is created
immediately and nothing is enqueued. -/
def create (localOffset now : ℚ) (scheduled_at : Option SchedDateTime)
    (authorId : UserId) (content : String)
    (imageFile imagePathForCelery : Option String) : PostCreateOutcome :=
  match scheduled_at with
  | none =>
      { createdPost := some ⟨authorId, content, imageFile⟩
        enqueuedTask := none
        payload := none }
  | some s =>
      if now < toUtc localOffset s then
        if toUtc localOffset s - now < 5 then
          { createdPost := some ⟨authorId, content, imageFile⟩
            enqueuedTask := none
            payload := none }
        else
          { createdPost := none
            enqueuedTask :=
              some ⟨authorId, content, imagePathForCelery,
                max 1 (pyInt (toUtc localOffset s - now))⟩
            payload :=
              some ⟨toUtc localOffset s - now,
                pyRound1 ((toUtc localOffset s - now) / 60)⟩ }
      else
        { createdPost := some ⟨authorId, content, imageFile⟩
          enqueuedTask := none
          payload := none }

end PostSerializer

/-! ## Follow serializer and views (`interactions/serializers.py`, `interactions/views.py`) -/

namespace FollowSerializer

/-- `FollowSerializer.validate` (`interactions/serializers.py` lines 36-45):
rejects a request whose `following` target equals the requesting user.  On the
success path the Python function falls off the end (it returns `None` rather
than the validated data). -/
def validate (requestUser target_following : UserId) : Except String Unit :=
  if requestUser = target_following then
    .error "You cannot follow yourself."
  else
    .ok ()

end FollowSerializer

/-- Outcome of a POST to the follow-creation endpoint. -/
inductive FollowCreateRes where
  /-- serializer `ValidationError`, surfaced by DRF as HTTP 400 -/
  | validationError (msg : String)
  /-- DRF's `run_validation` asserts that `validate()` returned the validated
  data; this serializer returns `None`, so on the success path the assertion
  fails before `perform_create` runs -/
  | assertionFailure
deriving DecidableEq, Repr

/-- `FollowViewSet.create`/`perform_create` composed with the serializer:
validation errors give HTTP 400 and save nothing; on the success path DRF's
non-`None` assertion on the `validate()` result fires, also before any row is
saved.  Returns the response and the resulting `Follow` table. -/
def followCreateFlow (follows : List FollowRow) (requester target : UserId) :
    FollowCreateRes × List FollowRow :=
  match FollowSerializer.validate requester target with
  | .error m => (.validationError m, follows)
  | .ok _ => (.assertionFailure, follows)

/-- `FollowViewSet.get_queryset` (`interactions/views.py` lines 67-79) for the
`list` action: users who are both staff and superuser see every `Follow` row;
everyone else gets `Follow.objects.none()`. -/
def followListQueryset (follows : List FollowRow) (u : UserRec) : List FollowRow :=
  if u.is_staff && u.is_superuser then follows else []

/-- `FollowViewSet.unfollow` (`interactions/views.py` lines 137-162):
look up the target user by `pk` (404 when absent); find the requester's
`Follow` row toward that user (400 when absent); otherwise delete exactly that
row and answer 204.  Result is `((HTTP status, detail), new Follow table)`. -/
def unfollow (users : List UserRec) (follows : List FollowRow)
    (requester : UserId) (pk : UserId) : (Nat × String) × List FollowRow :=
  match users.find? (fun u => u.id = pk) with
  | none => ((404, "User not found."), follows)
  | some target =>
      match follows.find?
          (fun f => f.follower = requester && f.following = target.id) with
      | none => ((400, "You are not following this user."), follows)
      | some follow_instance =>
          ((204, "Successfully unfollowed " ++ target.username),
            follows.erase follow_instance)

/-! ## Likes and comments (`interactions/views.py`, `interactions/models.py`)

`LikeViewSet.create` and `CommentViewSet.create` both wrap
`Post.objects.get(pk=post_id)` in `try: ... except Post.DoesNotExists:`.
Django defines a `DoesNotExist` exception attribute on every model; no
attribute named `DoesNotExists` exists on `Post`, and Python evaluates the
except clause's expression only when the `try` body raises — at which point
the missing attribute raises `AttributeError`, replacing the original
exception, so the intended 404 branch can never run. -/

/-- The exception-class attributes available on the `Post` model class. -/
def postExceptionAttr : String → Option String
  | "DoesNotExist" => some "Post.DoesNotExist"
  | _ => none

inductive GetPostRes where
  | found (p : PostRow)
  /-- the `except` branch the code intends: caught, to be answered with 404 -/
  | notFound404
  /-- evaluating the except clause raised `AttributeError`, which escapes -/
  | attrError (msg : String)
deriving DecidableEq, Repr

/-- `Post.objects.get(pk=post_id)` under the `except Post.DoesNotExists`
clause as written in `LikeViewSet.create` / `CommentViewSet.create`. -/
def getPostMistypedExcept (posts : List PostRow) (pid : PostId) : GetPostRes :=
  match posts.find? (fun p => p.id = pid) with
  | some p => .found p
  | none =>
      match postExceptionAttr "DoesNotExists" with
      | some _ => .notFound404
      | none => .attrError "type object Post has no attribute DoesNotExists"

/-- Python truthiness of `request.data.get("post")`: `None` (missing) and `0`
are falsy. -/
def postFieldTruthy : Option PostId → Bool
  | none => false
  | some pid => pid ≠ 0

/-- Python truthiness of `request.data.get("content")`: `None` (missing) and
the empty string are falsy. -/
def contentTruthy : Option String → Bool
  | none => false
  | some s => s ≠ ""

/-- The like tables: existing posts, existing likes, and the next primary key
the database will assign. -/
structure LikeDB where
  posts : List PostRow
  likes : List LikeRow
  nextId : Nat
deriving DecidableEq, Repr

inductive LikeCreateRes where
  /-- a `Response(..., status=400)` -/
  | badRequest (detail : String)
  /-- the `Response(..., status=404)` the except clause intends -/
  | notFoundResp (detail : String)
  /-- an exception escaped the view (server error) -/
  | uncaught (msg : String)
  /-- HTTP 201 with the newly created row -/
  | created (row : LikeRow)
deriving DecidableEq, Repr

/-- `LikeViewSet.create` (`interactions/views.py` lines 273-300) together with
`perform_create`: falsy `post` gives 400; the post lookup goes through the
mistyped except clause; an existing (user, post) like gives 400 and changes
nothing; otherwise a like owned by the requester is saved and 201 returned. -/
def likeViewSetCreate (db : LikeDB) (requester : UserId)
    (postField : Option PostId) : LikeCreateRes × LikeDB :=
  if postFieldTruthy postField = false then
    (.badRequest "Post ID is required.", db)
  else
    match getPostMistypedExcept db.posts (postField.getD 0) with
    | .notFound404 => (.notFoundResp "Post not found", db)
    | .attrError m => (.uncaught m, db)
    | .found post =>
        if db.likes.any (fun l => l.user = requester && l.post = post.id) then
          (.badRequest "You have already liked this post.", db)
        else
          (.created ⟨db.nextId, requester, post.id⟩,
            { db with likes := db.likes ++ [⟨db.nextId, requester, post.id⟩],
                      nextId := db.nextId + 1 })

/-- DELETE /likes/{id}: `get_object` fetches the row by pk, the
`IsOwnerOrReadOnly` check admits only the owner, and `perform_destroy`
deletes the row. -/
def likeDestroy (db : LikeDB) (rid : Nat) (requester : UserId) : LikeDB :=
  match db.likes.find? (fun l => l.id = rid) with
  | none => db
  | some row =>
      if row.user = requester then
        { db with likes := db.likes.filter (fun l => !(l.id = rid : Bool)) }
      else db

/-- PUT /likes/{id}: the serializer may rewrite the `post` foreign key of the
row fetched by pk; the `unique_together ("user", "post")` constraint of
`Like.Meta` rejects a write that would duplicate an existing pair, leaving
the table unchanged. -/
def likeUpdate (db : LikeDB) (rid : Nat) (newPost : PostId) : LikeDB :=
  match db.likes.find? (fun l => l.id = rid) with
  | none => db
  | some row =>
      if db.likes.any
          (fun l => !(l.id = rid : Bool) && l.user = row.user && l.post = newPost) then
        db
      else
        { db with likes :=
            db.likes.map (fun l => if l.id = rid then { row with post := newPost } else l) }

/-- The operations of the like endpoints plus post creation. -/
inductive LikeEvent where
  | createEv (requester : UserId) (postField : Option PostId)
  | destroyEv (rid : Nat) (requester : UserId)
  | updateEv (rid : Nat) (newPost : PostId)
  | addPostEv (p : PostRow)
deriving DecidableEq, Repr

def likeStep (db : LikeDB) : LikeEvent → LikeDB
  | .createEv u pf => (likeViewSetCreate db u pf).2
  | .destroyEv rid u => likeDestroy db rid u
  | .updateEv rid np => likeUpdate db rid np
  | .addPostEv p => { db with posts := db.posts ++ [p] }

/-- States reachable from an empty like table through the endpoints. -/
inductive LikeReachable : LikeDB → Prop where
  | init (posts : List PostRow) : LikeReachable ⟨posts, [], 1⟩
  | step (db : LikeDB) (e : LikeEvent) :
      LikeReachable db → LikeReachable (likeStep db e)

/-- At most one Like row per (user, post) pair. -/
def uniqueLikePairs (l : List LikeRow) : Prop :=
  l.Pairwise (fun a b => ¬(a.user = b.user ∧ a.post = b.post))

/-- Well-formedness of the like table: distinct primary keys, keys below the
allocator, and the `unique_together ("user", "post")` invariant. -/
def LikeDB.WF (db : LikeDB) : Prop :=
  (db.likes.map (fun l => l.id)).Nodup ∧
  (∀ l ∈ db.likes, l.id < db.nextId) ∧
  uniqueLikePairs db.likes

/-- The comment tables. -/
structure CommentDB where
  posts : List PostRow
  comments : List CommentRow
  nextId : Nat
deriving DecidableEq, Repr

inductive CommentCreateRes where
  /-- a raised `ValidationError` on one field, surfaced as HTTP 400 -/
  | fieldError (field msg : String)
  /-- the `Response(..., status=404)` the except clause intends -/
  | notFoundResp (detail : String)
  /-- an exception escaped the view (server error) -/
  | uncaught (msg : String)
  /-- a `Response(..., status=400)` -/
  | badRequest (detail : String)
  /-- HTTP 201 with the newly created row -/
  | created (row : CommentRow)
deriving DecidableEq, Repr

/-- `CommentViewSet.create` (`interactions/views.py` lines 431-456) together
with `perform_create`: falsy `post` or falsy `content` raise field-level
validation errors before anything is looked up or saved; the post lookup goes
through the mistyped except clause; an existing (user, post) comment gives
400 and changes nothing; otherwise a comment owned by the requester is saved
and 201 returned. -/
def commentViewSetCreate (db : CommentDB) (requester : UserId)
    (postField : Option PostId) (contentField : Option String) :
    CommentCreateRes × CommentDB :=
  if postFieldTruthy postField = false then
    (.fieldError "post" "Post ID is required.", db)
  else if contentTruthy contentField = false then
    (.fieldError "content" "Comment content cannot be empty.", db)
  else
    match getPostMistypedExcept db.posts (postField.getD 0) with
    | .notFound404 => (.notFoundResp "Post not found", db)
    | .attrError m => (.uncaught m, db)
    | .found post =>
        if db.comments.any (fun c => c.user = requester && c.post = post.id) then
          (.badRequest "You have already commented on this post.", db)
        else
          (.created ⟨db.nextId, requester, post.id, contentField.getD ""⟩,
            { db with
                comments := db.comments ++ [⟨db.nextId, requester, post.id, contentField.getD ""⟩],
                nextId := db.nextId + 1 })

/-- DELETE /comments/{id}: owner-only deletion of the row fetched by pk. -/
def commentDestroy (db : CommentDB) (rid : Nat) (requester : UserId) : CommentDB :=
  match db.comments.find? (fun c => c.id = rid) with
  | none => db
  | some row =>
      if row.user = requester then
        { db with comments := db.comments.filter (fun c => !(c.id = rid : Bool)) }
      else db

/-- PUT/PATCH /comments/{id}: owner-only update of `post` and `content`; the
`unique_together ("user", "post")` constraint of `Comment.Meta` rejects a
write that would duplicate an existing pair, leaving the table unchanged. -/
def commentUpdate (db : CommentDB) (rid : Nat) (requester : UserId)
    (newPost : Option PostId) (newContent : Option String) : CommentDB :=
  match db.comments.find? (fun c => c.id = rid) with
  | none => db
  | some row =>
      if row.user = requester then
        if db.comments.any
            (fun c => !(c.id = rid : Bool) && c.user = row.user &&
              c.post = newPost.getD row.post) then
          db
        else
          { db with comments :=
              db.comments.map (fun c =>
                if c.id = rid then
                  { row with post := newPost.getD row.post
                             content := newContent.getD row.content }
                else c) }
      else db

/-- The operations of the comment endpoints plus post creation. -/
inductive CommentEvent where
  | createEv (requester : UserId) (postField : Option PostId) (contentField : Option String)
  | destroyEv (rid : Nat) (requester : UserId)
  | updateEv (rid : Nat) (requester : UserId) (newPost : Option PostId) (newContent : Option String)
  | addPostEv (p : PostRow)
deriving DecidableEq, Repr

def commentStep (db : CommentDB) : CommentEvent → CommentDB
  | .createEv u pf cf => (commentViewSetCreate db u pf cf).2
  | .destroyEv rid u => commentDestroy db rid u
  | .updateEv rid u np nc => commentUpdate db rid u np nc
  | .addPostEv p => { db with posts := db.posts ++ [p] }

/-- States reachable from an empty comment table through the endpoints. -/
inductive CommentReachable : CommentDB → Prop where
  | init (posts : List PostRow) : CommentReachable ⟨posts, [], 1⟩
  | step (db : CommentDB) (e : CommentEvent) :
      CommentReachable db → CommentReachable (commentStep db e)

/-- At most one Comment row per (user, post) pair. -/
def uniqueCommentPairs (l : List CommentRow) : Prop :=
  l.Pairwise (fun a b => ¬(a.user = b.user ∧ a.post = b.post))

/-- Well-formedness of the comment table. -/
def CommentDB.WF (db : CommentDB) : Prop :=
  (db.comments.map (fun c => c.id)).Nodup ∧
  (∀ c ∈ db.comments, c.id < db.nextId) ∧
  uniqueCommentPairs db.comments

/-! ## Ownership permission (`users/permissions.py`) -/

namespace IsOwnerOrReadOnly

/-- The three object kinds this permission guards in `interactions/views.py`. -/
inductive OwnedObj where
  | likeObj (r : LikeRow)
  | commentObj (r : CommentRow)
  | followObj (r : FollowRow)
deriving DecidableEq, Repr

/-- Python attribute lookup `obj.user`: `Like` and `Comment` define a `user`
field; `Follow` defines only `follower` and `following`, so the `user`
attribute does not exist on it. -/
def userAttr : OwnedObj → Option UserId
  | .likeObj r => some r.user
  | .commentObj r => some r.user
  | .followObj _ => none

def SAFE_METHODS : List String := ["GET", "HEAD", "OPTIONS"]

inductive PermRes where
  | allow
  | deny
  /-- evaluating `obj.user` raised `AttributeError` (an uncaught server error) -/
  | attrError (msg : String)
deriving DecidableEq, Repr

/-- `IsOwnerOrReadOnly.has_object_permission` (`users/permissions.py` lines
4-12): safe methods are always allowed; otherwise the result is
`obj.user == request.user` — which, for an object without a `user` attribute,
raises `AttributeError` instead of returning a boolean. -/
def has_object_permission (method : String) (requester : UserId)
    (obj : OwnedObj) : PermRes :=
  if method ∈ SAFE_METHODS then .allow
  else
    match userAttr obj with
    | some u => if u = requester then .allow else .deny
    | none => .attrError "Follow object has no attribute user"

inductive DestroyRes where
  | noContent204
  | forbidden403
  /-- an exception escaped the view (HTTP 500) -/
  | errorResp (msg : String)
deriving DecidableEq, Repr

/-- The destroy flow for Follow/Like/Comment objects: DRF's `get_object` runs
`check_object_permissions`, which calls `has_object_permission` with the
DELETE method; denial becomes HTTP 403, success lets `perform_destroy` delete
the object and answer HTTP 204. -/
def destroyFlow (requester : UserId) (obj : OwnedObj) : DestroyRes :=
  match has_object_permission "DELETE" requester obj with
  | .allow => .noContent204
  | .deny => .forbidden403
  | .attrError m => .errorResp m

end IsOwnerOrReadOnly

/-! ## User registration (`users/serializers.py`) -/

/-- The validated data reaching `UserRegistrationSerializer.create`. -/
structure RegData where
  username : String
  email : String
  password : String
  password2 : String
  first_name : String
  last_name : String
deriving DecidableEq, Repr

/-- The keyword arguments passed to `User.objects.create_user`. -/
structure CreatedUser where
  username : String
  email : String
  password : String
  first_name : String
  last_name : String
deriving DecidableEq, Repr

namespace UserRegistrationSerializer

/-- `UserRegistrationSerializer.create` (`users/serializers.py` lines 52-60):
pops `password2`, overwrites `validated_data["username"]` with the email, and
calls `User.objects.create_user(**validated_data)`. -/
def create (vd : RegData) : CreatedUser :=
  { username := vd.email
    email := vd.email
    password := vd.password
    first_name := vd.first_name
    last_name := vd.last_name }

end UserRegistrationSerializer

/-! ## Helper lemmas -/

theorem postExceptionAttr_DoesNotExists : postExceptionAttr "DoesNotExists" = none := rfl

/-- The mistyped except clause can never produce the caught-404 outcome. -/
theorem getPost_ne_notFound (posts : List PostRow) (pid : PostId) :
    getPostMistypedExcept posts pid ≠ .notFound404 := by
  unfold getPostMistypedExcept
  cases h : posts.find? (fun p => p.id = pid) with
  | none =>
      rw [postExceptionAttr_DoesNotExists]
      simp
  | some p => simp

/-- When the post is missing, the lookup ends in an uncaught AttributeError. -/
theorem getPost_missing_attrError (posts : List PostRow) (pid : PostId)
    (h : posts.find? (fun p => p.id = pid) = none) :
    getPostMistypedExcept posts pid =
      .attrError "type object Post has no attribute DoesNotExists" := by
  unfold getPostMistypedExcept
  rw [h, postExceptionAttr_DoesNotExists]

/-- When the post is present, the lookup finds it. -/
theorem getPost_found (posts : List PostRow) (pid : PostId) (post : PostRow)
    (h : posts.find? (fun p => p.id = pid) = some post) :
    getPostMistypedExcept posts pid = .found post := by
  unfold getPostMistypedExcept
  rw [h]

theorem likeCreate_ne_notFoundResp (db : LikeDB) (u : UserId) (pf : Option PostId)
    (d : String) : (likeViewSetCreate db u pf).1 ≠ .notFoundResp d := by
  unfold likeViewSetCreate
  by_cases ht : postFieldTruthy pf = false
  · rw [if_pos ht]; simp
  · rw [if_neg ht]
    cases hg : getPostMistypedExcept db.posts (pf.getD 0) with
    | notFound404 => exact absurd hg (getPost_ne_notFound _ _)
    | attrError m => simp
    | found post =>
        simp only []
        split
        · simp
        · simp

theorem commentCreate_ne_notFoundResp (db : CommentDB) (u : UserId)
    (pf : Option PostId) (cf : Option String) (d : String) :
    (commentViewSetCreate db u pf cf).1 ≠ .notFoundResp d := by
  unfold commentViewSetCreate
  by_cases ht : postFieldTruthy pf = false
  · rw [if_pos ht]; simp
  · rw [if_neg ht]
    by_cases hc : contentTruthy cf = false
    · rw [if_pos hc]; simp
    · rw [if_neg hc]
      cases hg : getPostMistypedExcept db.posts (pf.getD 0) with
      | notFound404 => exact absurd hg (getPost_ne_notFound _ _)
      | attrError m => simp
      | found post =>
          simp only []
          split
          · simp
          · simp

/-- Appending a fresh element whose key exceeds every existing key keeps the
key list duplicate-free. -/
theorem nodup_append_fresh {α : Type} (idf : α → Nat) (l : List α) (x : α)
    (hn : (l.map idf).Nodup) (hlt : ∀ y ∈ l, idf y < idf x) :
    ((l ++ [x]).map idf).Nodup := by
  rw [List.map_append, List.nodup_append]
  refine ⟨hn, by simp, ?_⟩
  intro a ha hb
  simp only [List.map_cons, List.map_nil, List.mem_singleton] at hb
  obtain ⟨y, hy, rfl⟩ := List.mem_map.mp ha
  have := hlt y hy
  omega

/-- Mapping a function that preserves keys preserves the key list. -/
theorem map_key_of_key_preserving {α : Type} (idf : α → Nat) (g : α → α)
    (hg : ∀ x, idf (g x) = idf x) (l : List α) :
    (l.map g).map idf = l.map idf := by
  induction l with
  | nil => rfl
  | cons c t ih => simp [hg, ih]

/-- Replacing the unique element with key `rid` by `row2` preserves pairwise
distinctness of (user, post) pairs, provided no other element already carries
`row2`'s pair. -/
theorem pairwise_update_of_nodup {α : Type} (idf uf pf : α → Nat)
    (l : List α) (rid : Nat) (row2 : α)
    (hn : (l.map idf).Nodup)
    (hp : l.Pairwise (fun a b => ¬(uf a = uf b ∧ pf a = pf b)))
    (hno : ∀ x ∈ l, idf x ≠ rid → ¬(uf x = uf row2 ∧ pf x = pf row2)) :
    (l.map (fun x => if idf x = rid then row2 else x)).Pairwise
      (fun a b => ¬(uf a = uf b ∧ pf a = pf b)) := by
  induction l with
  | nil => simp
  | cons c t ih =>
      rw [List.map_cons] at hn
      rw [List.nodup_cons] at hn
      obtain ⟨hc_not, hn'⟩ := hn
      rw [List.pairwise_cons] at hp
      obtain ⟨hhead, hp'⟩ := hp
      have hno_t : ∀ x ∈ t, idf x ≠ rid → ¬(uf x = uf row2 ∧ pf x = pf row2) :=
        fun x hx => hno x (List.mem_cons_of_mem c hx)
      rw [List.map_cons, List.pairwise_cons]
      by_cases hc : idf c = rid
      · rw [if_pos hc]
        refine ⟨?_, ih hn' hp' hno_t⟩
        intro y hy
        obtain ⟨x, hx, rfl⟩ := List.mem_map.mp hy
        have hxid : idf x ≠ rid := by
          intro hxx
          exact hc_not (hc ▸ hxx ▸ List.mem_map_of_mem idf hx)
        rw [if_neg hxid]
        rintro ⟨h1, h2⟩
        exact hno_t x hx hxid ⟨h1.symm, h2.symm⟩
      · rw [if_neg hc]
        refine ⟨?_, ih hn' hp' hno_t⟩
        intro y hy
        obtain ⟨x, hx, rfl⟩ := List.mem_map.mp hy
        by_cases hx2 : idf x = rid
        · rw [if_pos hx2]
          exact hno c (List.mem_cons_self c t) hc
        · rw [if_neg hx2]
          exact hhead x hx

theorem likeCreate_preserves_WF (db : LikeDB) (u : UserId) (pf : Option PostId)
    (h : db.WF) : ((likeViewSetCreate db u pf).2).WF := by
  obtain ⟨hn, hlt, hp⟩ := h
  unfold likeViewSetCreate
  by_cases ht : postFieldTruthy pf = false
  · rw [if_pos ht]; exact ⟨hn, hlt, hp⟩
  · rw [if_neg ht]
    cases hg : getPostMistypedExcept db.posts (pf.getD 0) with
    | notFound404 => exact ⟨hn, hlt, hp⟩
    | attrError m => exact ⟨hn, hlt, hp⟩
    | found post =>
        simp only []
        split
        · exact ⟨hn, hlt, hp⟩
        · rename_i hany
          refine ⟨?_, ?_, ?_⟩
          · exact nodup_append_fresh (fun l => l.id) db.likes ⟨db.nextId, u, post.id⟩
              hn (fun y hy => hlt y hy)
          · intro l hl
            rw [List.mem_append] at hl
            rcases hl with hl | hl
            · exact Nat.lt_succ_of_lt (hlt l hl)
            · simp at hl
              rw [hl]
              exact Nat.lt_succ_self _
          · unfold uniqueLikePairs at hp ⊢
            rw [List.pairwise_append]
            refine ⟨hp, by simp, ?_⟩
            intro a ha b hb
            simp only [List.mem_singleton] at hb
            subst hb
            rintro ⟨h1, h2⟩
            apply hany
            rw [List.any_eq_true]
            exact ⟨a, ha, by simp [h1, h2]⟩

theorem likeDestroy_preserves_WF (db : LikeDB) (rid : Nat) (u : UserId)
    (h : db.WF) : (likeDestroy db rid u).WF := by
  obtain ⟨hn, hlt, hp⟩ := h
  unfold likeDestroy
  cases hf : db.likes.find? (fun l => l.id = rid) with
  | none => exact ⟨hn, hlt, hp⟩
  | some row =>
      simp only []
      split
      · have hsub : List.Sublist (db.likes.filter (fun l => !(l.id = rid : Bool)))
            db.likes := List.filter_sublist db.likes
        refine ⟨hn.sublist (hsub.map _), ?_, hp.sublist hsub⟩
        intro l hl
        exact hlt l (hsub.mem hl)
      · exact ⟨hn, hlt, hp⟩

theorem likeUpdate_preserves_WF (db : LikeDB) (rid : Nat) (np : PostId)
    (h : db.WF) : (likeUpdate db rid np).WF := by
  obtain ⟨hn, hlt, hp⟩ := h
  unfold likeUpdate
  cases hf : db.likes.find? (fun l => l.id = rid) with
  | none => exact ⟨hn, hlt, hp⟩
  | some row =>
      simp only []
      split
      · exact ⟨hn, hlt, hp⟩
      · rename_i hany
        have hrid : row.id = rid := by simpa using List.find?_some hf
        have hg : ∀ x : LikeRow,
            (if x.id = rid then ({ row with post := np } : LikeRow) else x).id = x.id := by
          intro x
          by_cases hx : x.id = rid
          · rw [if_pos hx]; simp [hrid, hx]
          · rw [if_neg hx]
        refine ⟨?_, ?_, ?_⟩
        · rw [map_key_of_key_preserving (fun l => l.id) _ hg db.likes]
          exact hn
        · intro l hl
          obtain ⟨x, hx, rfl⟩ := List.mem_map.mp hl
          rw [hg x]
          exact hlt x hx
        · unfold uniqueLikePairs at hp ⊢
          have hno : ∀ x ∈ db.likes, x.id ≠ rid →
              ¬(x.user = ({ row with post := np } : LikeRow).user ∧
                x.post = ({ row with post := np } : LikeRow).post) := by
            intro x hx hid hcontra
            apply hany
            rw [List.any_eq_true]
            refine ⟨x, hx, ?_⟩
            simp only [Bool.and_eq_true, Bool.not_eq_true', decide_eq_false_iff_not,
              decide_eq_true_eq]
            exact ⟨⟨hid, hcontra.1⟩, hcontra.2⟩
          exact pairwise_update_of_nodup (fun l => l.id) (fun l => l.user)
            (fun l => l.post) db.likes rid _ hn hp hno

theorem likeStep_preserves_WF (db : LikeDB) (e : LikeEvent) (h : db.WF) :
    (likeStep db e).WF := by
  cases e with
  | createEv u pf => exact likeCreate_preserves_WF db u pf h
  | destroyEv rid u => exact likeDestroy_preserves_WF db rid u h
  | updateEv rid np => exact likeUpdate_preserves_WF db rid np h
  | addPostEv p => exact h

theorem likeReachable_WF (db : LikeDB) (h : LikeReachable db) : db.WF := by
  induction h with
  | init posts =>
      refine ⟨by simp, by simp, ?_⟩
      unfold uniqueLikePairs
      simp
  | step db e hdb ih => exact likeStep_preserves_WF db e ih

theorem commentCreate_preserves_WF (db : CommentDB) (u : UserId)
    (pf : Option PostId) (cf : Option String) (h : db.WF) :
    ((commentViewSetCreate db u pf cf).2).WF := by
  obtain ⟨hn, hlt, hp⟩ := h
  unfold commentViewSetCreate
  by_cases ht : postFieldTruthy pf = false
  · rw [if_pos ht]; exact ⟨hn, hlt, hp⟩
  · rw [if_neg ht]
    by_cases hc : contentTruthy cf = false
    · rw [if_pos hc]; exact ⟨hn, hlt, hp⟩
    · rw [if_neg hc]
      cases hg : getPostMistypedExcept db.posts (pf.getD 0) with
      | notFound404 => exact ⟨hn, hlt, hp⟩
      | attrError m => exact ⟨hn, hlt, hp⟩
      | found post =>
          simp only []
          split
          · exact ⟨hn, hlt, hp⟩
          · rename_i hany
            refine ⟨?_, ?_, ?_⟩
            · exact nodup_append_fresh (fun c => c.id) db.comments
                ⟨db.nextId, u, post.id, cf.getD ""⟩ hn (fun y hy => hlt y hy)
            · intro l hl
              rw [List.mem_append] at hl
              rcases hl with hl | hl
              · exact Nat.lt_succ_of_lt (hlt l hl)
              · simp at hl
                rw [hl]
                exact Nat.lt_succ_self _
            · unfold uniqueCommentPairs at hp ⊢
              rw [List.pairwise_append]
              refine ⟨hp, by simp, ?_⟩
              intro a ha b hb
              simp only [List.mem_singleton] at hb
              subst hb
              rintro ⟨h1, h2⟩
              apply hany
              rw [List.any_eq_true]
              exact ⟨a, ha, by simp [h1, h2]⟩

theorem commentDestroy_preserves_WF (db : CommentDB) (rid : Nat) (u : UserId)
    (h : db.WF) : (commentDestroy db rid u).WF := by
  obtain ⟨hn, hlt, hp⟩ := h
  unfold commentDestroy
  cases hf : db.comments.find? (fun c => c.id = rid) with
  | none => exact ⟨hn, hlt, hp⟩
  | some row =>
      simp only []
      split
      · have hsub : List.Sublist (db.comments.filter (fun c => !(c.id = rid : Bool)))
            db.comments := List.filter_sublist db.comments
        refine ⟨hn.sublist (hsub.map _), ?_, hp.sublist hsub⟩
        intro l hl
        exact hlt l (hsub.mem hl)
      · exact ⟨hn, hlt, hp⟩

theorem commentUpdate_preserves_WF (db : CommentDB) (rid : Nat) (u : UserId)
    (np : Option PostId) (nc : Option String) (h : db.WF) :
    (commentUpdate db rid u np nc).WF := by
  obtain ⟨hn, hlt, hp⟩ := h
  unfold commentUpdate
  cases hf : db.comments.find? (fun c => c.id = rid) with
  | none => exact ⟨hn, hlt, hp⟩
  | some row =>
      simp only []
      split
      · split
        · exact ⟨hn, hlt, hp⟩
        · rename_i hown hany
          have hrid : row.id = rid := by simpa using List.find?_some hf
          have hg : ∀ x : CommentRow,
              (if x.id = rid then
                ({ row with post := np.getD row.post,
                            content := nc.getD row.content } : CommentRow)
              else x).id = x.id := by
            intro x
            by_cases hx : x.id = rid
            · rw [if_pos hx]; simp [hrid, hx]
            · rw [if_neg hx]
          refine ⟨?_, ?_, ?_⟩
          · rw [map_key_of_key_preserving (fun c => c.id) _ hg db.comments]
            exact hn
          · intro l hl
            obtain ⟨x, hx, rfl⟩ := List.mem_map.mp hl
            rw [hg x]
            exact hlt x hx
          · unfold uniqueCommentPairs at hp ⊢
            have hno : ∀ x ∈ db.comments, x.id ≠ rid →
                ¬(x.user =
                    ({ row with post := np.getD row.post,
                                content := nc.getD row.content } : CommentRow).user ∧
                  x.post =
                    ({ row with post := np.getD row.post,
                                content := nc.getD row.content } : CommentRow).post) := by
              intro x hx hid hcontra
              apply hany
              rw [List.any_eq_true]
              refine ⟨x, hx, ?_⟩
              simp only [Bool.and_eq_true, Bool.not_eq_true', decide_eq_false_iff_not,
                decide_eq_true_eq]
              exact ⟨⟨hid, hcontra.1⟩, hcontra.2⟩
            exact pairwise_update_of_nodup (fun c => c.id) (fun c => c.user)
              (fun c => c.post) db.comments rid _ hn hp hno
      · exact ⟨hn, hlt, hp⟩

theorem commentStep_preserves_WF (db : CommentDB) (e : CommentEvent) (h : db.WF) :
    (commentStep db e).WF := by
  cases e with
  | createEv u pf cf => exact commentCreate_preserves_WF db u pf cf h
  | destroyEv rid u => exact commentDestroy_preserves_WF db rid u h
  | updateEv rid u np nc => exact commentUpdate_preserves_WF db rid u np nc h
  | addPostEv p => exact h

theorem commentReachable_WF (db : CommentDB) (h : CommentReachable db) : db.WF := by
  induction h with
  | init posts =>
      refine ⟨by simp, by simp, ?_⟩
      unfold uniqueCommentPairs
      simp
  | step db e hdb ih => exact commentStep_preserves_WF db e ih

/-! ## Claim theorems -/

/-- C1: for a post-creation request carrying `scheduled_at`, the serializer
normalizes a naive timestamp via the local zone (`toUtc` with the configured
offset), compares the UTC instants, and branches: a strictly-future instant at
least 5 seconds away enqueues a `create_scheduled_post` task and creates no
post row synchronously; a past or present instant, or a delay under 5
seconds, creates the post immediately and enqueues nothing. -/
theorem scheduled_post_branching (o now : ℚ) (s : SchedDateTime)
    (a : UserId) (c : String) (img imgPath : Option String) :
    (now < toUtc o s → 5 ≤ toUtc o s - now →
      (PostSerializer.create o now (some s) a c img imgPath).createdPost = none ∧
      (PostSerializer.create o now (some s) a c img imgPath).enqueuedTask ≠ none) ∧
    (toUtc o s ≤ now ∨ toUtc o s - now < 5 →
      (PostSerializer.create o now (some s) a c img imgPath).createdPost =
        some ⟨a, c, img⟩ ∧
      (PostSerializer.create o now (some s) a c img imgPath).enqueuedTask = none) := by
  unfold PostSerializer.create
  simp only []
  constructor
  · intro h1 h2
    rw [if_pos h1, if_neg (by linarith : ¬(toUtc o s - now < 5))]
    exact ⟨rfl, by simp⟩
  · intro h
    rcases h with h | h
    · rw [if_neg (not_lt.mpr h)]
      exact ⟨rfl, rfl⟩
    · by_cases hlt : now < toUtc o s
      · rw [if_pos hlt, if_pos h]
        exact ⟨rfl, rfl⟩
      · rw [if_neg hlt]
        exact ⟨rfl, rfl⟩

/-- C1 witness: a 10-second-away request is deferred; a 2-second-away request
is created immediately. -/
theorem scheduled_post_branching_witness :
    ((PostSerializer.create 0 0 (some (.aware 10)) 1 "hello" none none).createdPost = none ∧
      (PostSerializer.create 0 0 (some (.aware 10)) 1 "hello" none none).enqueuedTask ≠ none) ∧
    ((PostSerializer.create 0 0 (some (.aware 2)) 1 "hello" none none).createdPost =
        some ⟨1, "hello", none⟩ ∧
      (PostSerializer.create 0 0 (some (.aware 2)) 1 "hello" none none).enqueuedTask = none) :=
  ⟨(scheduled_post_branching 0 0 (.aware 10) 1 "hello" none none).1
      (by norm_num [toUtc]) (by norm_num [toUtc]),
   (scheduled_post_branching 0 0 (.aware 2) 1 "hello" none none).2
      (Or.inr (by norm_num [toUtc]))⟩

/-- C7: for a deferred post, the delay is exactly the UTC difference in
seconds, the task countdown is `max 1 (int delay)` — with `int` being
truncation, which on this positive delay is the floor — and the payload
reports the delay in seconds and, rounded to one decimal place, in minutes. -/
theorem scheduled_post_delay_arithmetic (o now : ℚ) (s : SchedDateTime)
    (a : UserId) (c : String) (img imgPath : Option String)
    (h1 : now < toUtc o s) (h2 : 5 ≤ toUtc o s - now) :
    (PostSerializer.create o now (some s) a c img imgPath).enqueuedTask =
      some ⟨a, c, imgPath, max 1 (pyInt (toUtc o s - now))⟩ ∧
    pyInt (toUtc o s - now) = ⌊toUtc o s - now⌋ ∧
    (PostSerializer.create o now (some s) a c img imgPath).payload =
      some ⟨toUtc o s - now, pyRound1 ((toUtc o s - now) / 60)⟩ := by
  have hif : ¬(toUtc o s - now < 5) := by linarith
  unfold PostSerializer.create
  simp only []
  rw [if_pos h1, if_neg hif]
  refine ⟨rfl, ?_, rfl⟩
  unfold pyInt
  rw [if_pos (by linarith : (0 : ℚ) ≤ toUtc o s - now)]

/-- C7 witness: a 6.5-second delay gives countdown `max 1 6 = 6` and payload
minutes `round(6.5 / 60, 1) = 0.1`. -/
theorem scheduled_post_delay_arithmetic_witness :
    (PostSerializer.create 0 0 (some (.aware (13/2))) 7 "x" none
        (some "img")).enqueuedTask =
      some ⟨7, "x", some "img", max 1 (pyInt (toUtc 0 (.aware (13/2)) - 0))⟩ ∧
    pyInt (toUtc 0 (.aware (13/2)) - 0) = ⌊toUtc 0 (.aware (13/2)) - (0 : ℚ)⌋ ∧
    (PostSerializer.create 0 0 (some (.aware (13/2))) 7 "x" none
        (some "img")).payload =
      some ⟨toUtc 0 (.aware (13/2)) - 0,
        pyRound1 ((toUtc 0 (.aware (13/2)) - 0) / 60)⟩ :=
  scheduled_post_delay_arithmetic 0 0 (.aware (13/2)) 7 "x" none (some "img")
    (by norm_num [toUtc]) (by norm_num [toUtc])

/-- C2: a follow-creation request targeting the requester raises the
validation error "You cannot follow yourself." (HTTP 400) and saves no Follow
row; for a different target the self-follow check raises nothing. -/
theorem follow_self_check (follows : List FollowRow) (u t : UserId) :
    (u = t →
      FollowSerializer.validate u t = Except.error "You cannot follow yourself." ∧
      followCreateFlow follows u t =
        (.validationError "You cannot follow yourself.", follows)) ∧
    (u ≠ t → FollowSerializer.validate u t = Except.ok ()) := by
  constructor
  · intro h
    subst h
    constructor
    · unfold FollowSerializer.validate
      rw [if_pos rfl]
    · unfold followCreateFlow FollowSerializer.validate
      rw [if_pos rfl]
  · intro h
    unfold FollowSerializer.validate
    rw [if_neg h]

/-- C2 witness: user 1 following user 1 is rejected with the exact message and
an unchanged table; user 1 following user 2 passes the self-follow check. -/
theorem follow_self_check_witness :
    (FollowSerializer.validate 1 1 = Except.error "You cannot follow yourself." ∧
      followCreateFlow [] 1 1 = (.validationError "You cannot follow yourself.", [])) ∧
    FollowSerializer.validate 1 2 = Except.ok () :=
  ⟨(follow_self_check [] 1 1).1 rfl, (follow_self_check [] 1 2).2 (by decide)⟩

/-- C5 (the code at the failing input): DELETE on a Follow row evaluates
`obj.user` inside `IsOwnerOrReadOnly`, and the Follow model has no `user`
attribute, so the request — even by the row's creator, user 1 — ends in an
`AttributeError` escaping the view, never HTTP 204 or 403; for Like and
Comment objects the ownership check behaves as the claim states. -/
theorem follow_destroy_attribute_error :
    IsOwnerOrReadOnly.destroyFlow 1 (.followObj ⟨1, 1, 2⟩) =
      .errorResp "Follow object has no attribute user" ∧
    IsOwnerOrReadOnly.destroyFlow 1 (.followObj ⟨1, 1, 2⟩) ≠ .noContent204 ∧
    IsOwnerOrReadOnly.destroyFlow 3 (.followObj ⟨1, 1, 2⟩) ≠ .forbidden403 ∧
    IsOwnerOrReadOnly.destroyFlow 5 (.likeObj ⟨1, 5, 9⟩) = .noContent204 ∧
    IsOwnerOrReadOnly.destroyFlow 6 (.likeObj ⟨1, 5, 9⟩) = .forbidden403 ∧
    IsOwnerOrReadOnly.destroyFlow 5 (.commentObj ⟨1, 5, 9, "c"⟩) = .noContent204 ∧
    IsOwnerOrReadOnly.destroyFlow 6 (.commentObj ⟨1, 5, 9, "c"⟩) = .forbidden403 := by
  refine ⟨rfl, ?_, ?_, rfl, rfl, rfl, rfl⟩ <;> decide

/-- C6: the unfollow action answers 404 "User not found." for an unknown pk,
400 "You are not following this user." (table unchanged) when no matching
Follow row exists, and otherwise deletes exactly the requester's Follow row
toward that user, answering 204 with every other row still present. -/
theorem unfollow_branches (users : List UserRec) (follows : List FollowRow)
    (requester pk : UserId) :
    (users.find? (fun u => u.id = pk) = none →
      unfollow users follows requester pk = ((404, "User not found."), follows)) ∧
    (∀ target, users.find? (fun u => u.id = pk) = some target →
      (follows.find? (fun f => f.follower = requester && f.following = target.id) = none →
        unfollow users follows requester pk =
          ((400, "You are not following this user."), follows)) ∧
      (∀ inst,
        follows.find?
            (fun f => f.follower = requester && f.following = target.id) = some inst →
        inst.follower = requester ∧ inst.following = pk ∧
        (unfollow users follows requester pk).1.1 = 204 ∧
        (unfollow users follows requester pk).2 = follows.erase inst ∧
        (unfollow users follows requester pk).2.length + 1 = follows.length ∧
        (∀ g ∈ follows, g ≠ inst → g ∈ (unfollow users follows requester pk).2))) := by
  constructor
  · intro h
    unfold unfollow
    rw [h]
  · intro target ht
    constructor
    · intro hf
      unfold unfollow
      rw [ht]
      simp only []
      rw [hf]
    · intro inst hi
      have hprop : inst.follower = requester ∧ inst.following = target.id := by
        have := List.find?_some hi
        simpa using this
      have htgt : target.id = pk := by
        have := List.find?_some ht
        simpa using this
      have hmem : inst ∈ follows := List.mem_of_find?_eq_some hi
      have hres : unfollow users follows requester pk =
          ((204, "Successfully unfollowed " ++ target.username),
            follows.erase inst) := by
        unfold unfollow
        rw [ht]
        simp only []
        rw [hi]
      refine ⟨hprop.1, hprop.2.trans htgt, ?_, ?_, ?_, ?_⟩
      · rw [hres]
      · rw [hres]
      · rw [hres]
        simp only []
        have hlen := List.length_erase_of_mem hmem
        have hpos : 0 < follows.length := List.length_pos_of_mem hmem
        omega
      · intro g hg hne
        rw [hres]
        exact (List.mem_erase_of_ne hne).2 hg

/-- C6 witness: deleting an existing follow answers 204 and erases the row;
an unknown pk answers 404. -/
theorem unfollow_branches_witness :
    unfollow ([] : List UserRec) [] 1 5 = ((404, "User not found."), []) ∧
    (unfollow [⟨2, "bob", "bob", false, false⟩] [⟨1, 1, 2⟩] 1 2).1.1 = 204 ∧
    (unfollow [⟨2, "bob", "bob", false, false⟩] [⟨1, 1, 2⟩] 1 2).2 =
      ([⟨1, 1, 2⟩] : List FollowRow).erase ⟨1, 1, 2⟩ := by
  refine ⟨(unfollow_branches [] [] 1 5).1 rfl, ?_, ?_⟩
  · exact (((unfollow_branches [⟨2, "bob", "bob", false, false⟩] [⟨1, 1, 2⟩] 1 2).2
      ⟨2, "bob", "bob", false, false⟩ rfl).2 ⟨1, 1, 2⟩ rfl).2.2.1
  · exact (((unfollow_branches [⟨2, "bob", "bob", false, false⟩] [⟨1, 1, 2⟩] 1 2).2
      ⟨2, "bob", "bob", false, false⟩ rfl).2 ⟨1, 1, 2⟩ rfl).2.2.2.1

/-- C8: registration always stores the supplied email as the username — the
created user's username equals the email, and changing the supplied username
changes nothing about the created user. -/
theorem registration_username_is_email (vd : RegData) :
    (UserRegistrationSerializer.create vd).username = vd.email ∧
    ∀ uname : String,
      UserRegistrationSerializer.create { vd with username := uname } =
        UserRegistrationSerializer.create vd :=
  ⟨rfl, fun _ => rfl⟩

/-- C9: the `except Post.DoesNotExists` clause is ill-formed — the attribute
does not exist on the Post model, so a failed lookup ends in the
AttributeError outcome, the caught-404 outcome is unreachable, and neither
the like- nor the comment-creation flow can ever produce the intended
"Post not found" 404 response. -/
theorem mistyped_except_unreachable (posts : List PostRow) (pid : PostId) :
    (posts.find? (fun p => p.id = pid) = none →
      getPostMistypedExcept posts pid =
        .attrError "type object Post has no attribute DoesNotExists") ∧
    getPostMistypedExcept posts pid ≠ .notFound404 ∧
    (∀ (db : LikeDB) (u : UserId) (pf : Option PostId) (d : String),
      (likeViewSetCreate db u pf).1 ≠ .notFoundResp d) ∧
    (∀ (db : CommentDB) (u : UserId) (pf : Option PostId) (cf : Option String)
        (d : String),
      (commentViewSetCreate db u pf cf).1 ≠ .notFoundResp d) :=
  ⟨fun h => getPost_missing_attrError posts pid h,
   getPost_ne_notFound posts pid,
   fun db u pf d => likeCreate_ne_notFoundResp db u pf d,
   fun db u pf cf d => commentCreate_ne_notFoundResp db u pf cf d⟩

/-- C9 witness: on an empty post table, liking post 1 escapes with the
AttributeError instead of the 404 response. -/
theorem mistyped_except_unreachable_witness :
    getPostMistypedExcept [] 1 =
      .attrError "type object Post has no attribute DoesNotExists" ∧
    (likeViewSetCreate ⟨[], [], 1⟩ 1 (some 1)).1 ≠ .notFoundResp "Post not found" :=
  ⟨(mistyped_except_unreachable [] 1).1 rfl,
   (mistyped_except_unreachable [] 1).2.2.1 ⟨[], [], 1⟩ 1 (some 1) "Post not found"⟩

/-- C3: every state reachable through the like endpoints holds at most one
Like row per (user, post) pair; a duplicate like request gets HTTP 400 with
"You have already liked this post." and an unchanged table; with no existing
like and the post present, a like owned by the requester is created and 201
returned. -/
theorem like_unique_per_user_post (db : LikeDB) (u : UserId) (pid : PostId) :
    (LikeReachable db → uniqueLikePairs db.likes) ∧
    (∀ post, db.posts.find? (fun p => p.id = pid) = some post → pid ≠ 0 →
      (((∃ l ∈ db.likes, l.user = u ∧ l.post = pid) →
        likeViewSetCreate db u (some pid) =
          (.badRequest "You have already liked this post.", db)) ∧
      ((∀ l ∈ db.likes, ¬(l.user = u ∧ l.post = pid)) →
        likeViewSetCreate db u (some pid) =
          (.created ⟨db.nextId, u, pid⟩,
            { db with likes := db.likes ++ [⟨db.nextId, u, pid⟩],
                      nextId := db.nextId + 1 })))) := by
  constructor
  · intro h
    exact (likeReachable_WF db h).2.2
  · intro post hfind hpid
    have hpost : post.id = pid := by simpa using List.find?_some hfind
    have htr : ¬(postFieldTruthy (some pid) = false) := by
      simp [postFieldTruthy, hpid]
    have hget : getPostMistypedExcept db.posts ((some pid : Option PostId).getD 0) =
        .found post := getPost_found db.posts pid post hfind
    constructor
    · rintro ⟨l, hl, hlu, hlp⟩
      have hany : db.likes.any (fun x => x.user = u && x.post = post.id) = true := by
        rw [List.any_eq_true]
        exact ⟨l, hl, by simp [hlu, hlp, hpost]⟩
      unfold likeViewSetCreate
      rw [if_neg htr, hget]
      simp only []
      rw [if_pos hany]
    · intro hnone
      have hany : db.likes.any (fun x => x.user = u && x.post = post.id) = false := by
        by_contra hx
        rw [Bool.not_eq_false, List.any_eq_true] at hx
        obtain ⟨l, hl, hlp⟩ := hx
        simp only [Bool.and_eq_true, decide_eq_true_eq] at hlp
        exact hnone l hl ⟨hlp.1, hlp.2.trans hpost⟩
      unfold likeViewSetCreate
      rw [if_neg htr, hget]
      simp only []
      rw [if_neg (by simp [hany]), hpost]

/-- C3 witness: on a table where user 2 already likes post 1, a second like
by user 2 is refused with the table unchanged; a like by user 3 is created. -/
theorem like_unique_per_user_post_witness :
    likeViewSetCreate ⟨[⟨1, 1, "p", none⟩], [⟨1, 2, 1⟩], 2⟩ 2 (some 1) =
      (.badRequest "You have already liked this post.",
        ⟨[⟨1, 1, "p", none⟩], [⟨1, 2, 1⟩], 2⟩) ∧
    likeViewSetCreate ⟨[⟨1, 1, "p", none⟩], [⟨1, 2, 1⟩], 2⟩ 3 (some 1) =
      (.created ⟨2, 3, 1⟩,
        ⟨[⟨1, 1, "p", none⟩], [⟨1, 2, 1⟩, ⟨2, 3, 1⟩], 3⟩) := by
  constructor
  · exact ((like_unique_per_user_post ⟨[⟨1, 1, "p", none⟩], [⟨1, 2, 1⟩], 2⟩ 2 1).2
      ⟨1, 1, "p", none⟩ rfl (by decide)).1 ⟨⟨1, 2, 1⟩, by simp, rfl, rfl⟩
  · exact ((like_unique_per_user_post ⟨[⟨1, 1, "p", none⟩], [⟨1, 2, 1⟩], 2⟩ 3 1).2
      ⟨1, 1, "p", none⟩ rfl (by decide)).2 (by decide)

/-- C4: every state reachable through the comment endpoints holds at most one
Comment row per (user, post) pair; a duplicate comment request gets HTTP 400
with "You have already commented on this post." and an unchanged table; an
empty or missing content field raises a validation error before any comment
is created. -/
theorem comment_unique_per_user_post (db : CommentDB) (u : UserId) (pid : PostId)
    (cf : Option String) :
    (CommentReachable db → uniqueCommentPairs db.comments) ∧
    (pid ≠ 0 → contentTruthy cf = false →
      commentViewSetCreate db u (some pid) cf =
        (.fieldError "content" "Comment content cannot be empty.", db)) ∧
    (∀ post, db.posts.find? (fun p => p.id = pid) = some post → pid ≠ 0 →
      contentTruthy cf = true →
      (∃ c ∈ db.comments, c.user = u ∧ c.post = pid) →
      commentViewSetCreate db u (some pid) cf =
        (.badRequest "You have already commented on this post.", db)) := by
  refine ⟨?_, ?_, ?_⟩
  · intro h
    exact (commentReachable_WF db h).2.2
  · intro hpid hcf
    have htr : ¬(postFieldTruthy (some pid) = false) := by
      simp [postFieldTruthy, hpid]
    unfold commentViewSetCreate
    rw [if_neg htr, if_pos hcf]
  · intro post hfind hpid hcf hdup
    have hpost : post.id = pid := by simpa using List.find?_some hfind
    have htr : ¬(postFieldTruthy (some pid) = false) := by
      simp [postFieldTruthy, hpid]
    have hget : getPostMistypedExcept db.posts ((some pid : Option PostId).getD 0) =
        .found post := getPost_found db.posts pid post hfind
    obtain ⟨c, hc, hcu, hcp⟩ := hdup
    have hany : db.comments.any (fun x => x.user = u && x.post = post.id) = true := by
      rw [List.any_eq_true]
      exact ⟨c, hc, by simp [hcu, hcp, hpost]⟩
    unfold commentViewSetCreate
    rw [if_neg htr, if_neg (by simp [hcf]), hget]
    simp only []
    rw [if_pos hany]

/-- C4 witness: with user 2 already commenting on post 1, a second comment by
user 2 is refused with the table unchanged, and an empty content field is
rejected by a field-level validation error. -/
theorem comment_unique_per_user_post_witness :
    commentViewSetCreate ⟨[⟨1, 1, "p", none⟩], [⟨1, 2, 1, "hi"⟩], 2⟩ 2 (some 1)
        (some "again") =
      (.badRequest "You have already commented on this post.",
        ⟨[⟨1, 1, "p", none⟩], [⟨1, 2, 1, "hi"⟩], 2⟩) ∧
    commentViewSetCreate ⟨[⟨1, 1, "p", none⟩], [⟨1, 2, 1, "hi"⟩], 2⟩ 3 (some 1)
        (some "") =
      (.fieldError "content" "Comment content cannot be empty.",
        ⟨[⟨1, 1, "p", none⟩], [⟨1, 2, 1, "hi"⟩], 2⟩) := by
  constructor
  · exact (comment_unique_per_user_post ⟨[⟨1, 1, "p", none⟩], [⟨1, 2, 1, "hi"⟩], 2⟩
      2 1 (some "again")).2.2 ⟨1, 1, "p", none⟩ rfl (by decide) (by decide)
      ⟨⟨1, 2, 1, "hi"⟩, by simp, rfl, rfl⟩
  · exact (comment_unique_per_user_post ⟨[⟨1, 1, "p", none⟩], [⟨1, 2, 1, "hi"⟩], 2⟩
      3 1 (some "")).2.1 (by decide) (by decide)

/-- C10: a user who is not both staff and superuser gets an empty follow list
whatever the Follow table holds, so two runs over any two table states agree
and reveal nothing. -/
theorem follow_list_leaks_nothing (u : UserRec)
    (h : ¬(u.is_staff = true ∧ u.is_superuser = true))
    (f1 f2 : List FollowRow) :
    followListQueryset f1 u = [] ∧
    followListQueryset f1 u = followListQueryset f2 u := by
  have hb : (u.is_staff && u.is_superuser) = false := by
    cases hs : u.is_staff
    · simp
    · cases hp : u.is_superuser
      · simp
      · exact absurd ⟨hs, hp⟩ h
  constructor <;> simp [followListQueryset, hb]

/-- C10 witness: a superuser who is not staff sees the empty list on both a
populated and an empty table. -/
theorem follow_list_leaks_nothing_witness :
    followListQueryset [⟨1, 1, 2⟩] ⟨1, "a", "a", false, true⟩ = [] ∧
    followListQueryset [⟨1, 1, 2⟩] ⟨1, "a", "a", false, true⟩ =
      followListQueryset [] ⟨1, "a", "a", false, true⟩ :=
  follow_list_leaks_nothing ⟨1, "a", "a", false, true⟩ (by simp) [⟨1, 1, 2⟩] []

end SocialMediaAPI
